import Mathlib

/-!
Verification of the chat orchestration route of `arcana.ai`
(`src/app/api/chat/[chatId]/route.ts`) against its natural-language
specification.  The first part embeds the word-overlap similarity scorer
(`createWordMap` / `analyzeMessageSimilarity`, route.ts lines 19-44); the
second part embeds the `POST` handler (lines 46-186) as a function from a
request environment to a response together with the ordered trace of the
side effects the handler issues.

JavaScript string primitives are embedded at the character level with
structural recursion: `toLowerCase` as a character map, single-character
`split(sep)` as `splitChars`, so that every definition is executable by the
kernel on concrete inputs.
-/

/-- JavaScript `str.split(sep)` for a single-character separator, modelled as
splitting the character list at every character satisfying `p`.  Like the
JavaScript function it yields the (possibly empty) fragments between
separator occurrences, and `""` splits to `[""]`. -/
def splitChars (p : Char → Bool) : List Char → List (List Char)
  | [] => [[]]
  | c :: cs =>
    match splitChars p cs with
    | [] => [[]]
    | t :: ts => if p c then [] :: t :: ts else (c :: t) :: ts

/-- Models `msg.toLowerCase().split(" ").filter(word => word.length > 0)`
(route.ts lines 30-31): lower-case every character, split at every space
character, discard empty fragments. -/
def tokenizeWords (s : String) : List String :=
  ((splitChars (fun c => c = ' ') (s.data.map Char.toLower)).map String.mk).filter
    fun word => word.length > 0

/-- Lookup in the association-list model of the JavaScript `Map`
(`wordMap.get(word)`). -/
def mapGet (m : List (String × Nat)) (w : String) : Option Nat :=
  (m.find? fun p => p.1 == w).map fun p => p.2

/-- Models `wordMap.set(word, v)`: it replaces the value when the key is present,
otherwise appends the new pair (a JavaScript `Map` preserves insertion
order). -/
def mapSet (m : List (String × Nat)) (w : String) (v : Nat) : List (String × Nat) :=
  if (m.find? fun p => p.1 == w).isSome then
    m.map fun p => if p.1 == w then (w, v) else p
  else
    m ++ [(w, v)]

/-- The fold `createWordMap` (route.ts lines 19-25): fold every word into the map,
setting it to `(wordMap.get(word) || 0) + 1`. -/
def createWordMap (words : List String) : List (String × Nat) :=
  words.foldl (fun wordMap word => mapSet wordMap word ((mapGet wordMap word).getD 0 + 1)) []

/-- The `commonWords` accumulation loop (route.ts lines 36-41):
`msgWordMap.forEach((count, word) => if (promptWordMap.has(word))
commonWords += Math.min(count, promptWordMap.get(word) || 0))`. -/
def commonWordsOf (msgWordMap promptWordMap : List (String × Nat)) : Nat :=
  msgWordMap.foldl
    (fun commonWords p =>
      if (mapGet promptWordMap p.1).isSome then
        commonWords + min p.2 ((mapGet promptWordMap p.1).getD 0)
      else commonWords)
    0

/-- The scorer `analyzeMessageSimilarity` (route.ts lines 27-44).  The final ratio is
computed over the rationals; when both token lists are empty the ratio is
`0/0`, which is `0` in `ℚ` and `NaN` in JavaScript — under the `> 0.6`
comparison both give `false`, so the models agree. -/
def analyzeMessageSimilarity (msg prompt : String) : Bool :=
  if msg = "" then false
  else
    let msgWords := tokenizeWords msg
    let promptWords := tokenizeWords prompt
    let msgWordMap := createWordMap msgWords
    let promptWordMap := createWordMap promptWords
    let commonWords := commonWordsOf msgWordMap promptWordMap
    decide ((commonWords : ℚ) / ((max msgWords.length promptWords.length : ℕ) : ℚ) > 0.6)

/-- Tokenization as worded by the spec (§4.4): "lower-case and
whitespace-tokenize both strings, discarding empty tokens". -/
def wsTokenize (s : String) : List String :=
  ((splitChars (fun c => c.isWhitespace) (s.data.map Char.toLower)).map String.mk).filter
    fun word => word.length > 0

/-- The reference similarity scorer taken from the spec's words (§4.4):
whitespace tokenization, token→count mappings, `commonWords = Σ min` over
tokens present in both mappings, ratio against the larger token count,
empty candidate degenerates to `false`. -/
def isRepetitiveSpec (candidate reference : String) : Bool :=
  if candidate = "" then false
  else
    let tA := wsTokenize candidate
    let tB := wsTokenize reference
    let common :=
      ((tA.dedup.filter fun w => decide (w ∈ tB)).map
        fun w => min (tA.count w) (tB.count w)).sum
    decide ((common : ℚ) / ((max tA.length tB.length : ℕ) : ℚ) > 0.6)

/-- The spec's reference scorer amended in exactly one place: tokenization
splits on the space character only, matching the source's `split(" ")`. -/
def isRepetitiveSpecSpace (candidate reference : String) : Bool :=
  if candidate = "" then false
  else
    let tA := tokenizeWords candidate
    let tB := tokenizeWords reference
    let common :=
      ((tA.dedup.filter fun w => decide (w ∈ tB)).map
        fun w => min (tA.count w) (tB.count w)).sum
    decide ((common : ℚ) / ((max tA.length tB.length : ℕ) : ℚ) > 0.6)

example : tokenizeWords "The Cat  sat" = ["the", "cat", "sat"] := by decide
example : tokenizeWords "" = [] := by decide
example : tokenizeWords "a\tb" = ["a\tb"] := by decide
example : wsTokenize "a\tb" = ["a", "b"] := by decide
example : analyzeMessageSimilarity "" "anything" = false := rfl
example : createWordMap ["a", "b", "a"] = [("a", 2), ("b", 1)] := by decide
example : commonWordsOf (createWordMap ["a", "b", "a"]) (createWordMap ["a", "c"]) = 1 := by
  decide

/-! ### Correctness of the word-map model -/

lemma mapGet_nil (w : String) : mapGet [] w = none := rfl

lemma mapGet_cons_pos (a : String × Nat) (m : List (String × Nat)) (w : String)
    (h : (a.1 == w) = true) : mapGet (a :: m) w = some a.2 := by
  unfold mapGet
  rw [@List.find?_cons_of_pos (String × Nat) (fun p => p.1 == w) a m h]
  rfl

lemma mapGet_cons_neg (a : String × Nat) (m : List (String × Nat)) (w : String)
    (h : (a.1 == w) = false) : mapGet (a :: m) w = mapGet m w := by
  unfold mapGet
  rw [@List.find?_cons_of_neg (String × Nat) (fun p => p.1 == w) a m (by simp [h])]

lemma mapGet_map_update_self (m : List (String × Nat)) (w : String) (v : Nat)
    (h : (m.find? fun p => p.1 == w).isSome = true) :
    mapGet (m.map fun p => if p.1 == w then (w, v) else p) w = some v := by
  induction m with
  | nil => simp [List.find?] at h
  | cons a m ih =>
    rw [List.map_cons]
    by_cases ha : (a.1 == w) = true
    · rw [if_pos ha, mapGet_cons_pos ((w, v)) _ w (by simp)]
    · have ha' : (a.1 == w) = false := by simpa using ha
      rw [@List.find?_cons_of_neg (String × Nat) (fun p => p.1 == w) a m (by simp [ha'])] at h
      rw [if_neg (by simp [ha']), mapGet_cons_neg _ _ w ha']
      exact ih h

lemma mapGet_map_update_ne (m : List (String × Nat)) (w w' : String) (v : Nat)
    (hne : w' ≠ w) :
    mapGet (m.map fun p => if p.1 == w then (w, v) else p) w' = mapGet m w' := by
  induction m with
  | nil => rfl
  | cons a m ih =>
    rw [List.map_cons]
    by_cases ha : (a.1 == w) = true
    · have hww' : (w == w') = false := by
        simp only [beq_eq_false_iff_ne, ne_eq]
        exact fun h => hne h.symm
      have haw' : (a.1 == w') = false := by
        have hw : a.1 = w := by simpa using ha
        rw [hw]; exact hww'
      rw [if_pos ha, mapGet_cons_neg ((w, v)) _ w' hww', mapGet_cons_neg a _ w' haw']
      exact ih
    · have ha' : (a.1 == w) = false := by simpa using ha
      rw [if_neg (by simp [ha'])]
      by_cases haw' : (a.1 == w') = true
      · rw [mapGet_cons_pos a _ w' haw', mapGet_cons_pos a _ w' haw']
      · have haw'' : (a.1 == w') = false := by simpa using haw'
        rw [mapGet_cons_neg a _ w' haw'', mapGet_cons_neg a _ w' haw'']
        exact ih

lemma mapGet_append_self (m : List (String × Nat)) (w : String) (v : Nat)
    (h : (m.find? fun p => p.1 == w) = none) :
    mapGet (m ++ [(w, v)]) w = some v := by
  induction m with
  | nil => exact mapGet_cons_pos ((w, v)) [] w (by simp)
  | cons a m ih =>
    have ha : (a.1 == w) = false := by
      by_cases hb : (a.1 == w) = true
      · rw [@List.find?_cons_of_pos (String × Nat) (fun p => p.1 == w) a m hb] at h
        cases h
      · simpa using hb
    rw [@List.find?_cons_of_neg (String × Nat) (fun p => p.1 == w) a m (by simp [ha])] at h
    rw [List.cons_append, mapGet_cons_neg a _ w ha]
    exact ih h

lemma mapGet_append_ne (m : List (String × Nat)) (w w' : String) (v : Nat)
    (hne : w' ≠ w) :
    mapGet (m ++ [(w, v)]) w' = mapGet m w' := by
  induction m with
  | nil =>
    have hww' : (w == w') = false := by
      simp only [beq_eq_false_iff_ne, ne_eq]
      exact fun h => hne h.symm
    rw [List.nil_append, mapGet_cons_neg ((w, v)) [] w' hww']
  | cons a m ih =>
    by_cases ha : (a.1 == w') = true
    · rw [List.cons_append, mapGet_cons_pos a _ w' ha, mapGet_cons_pos a _ w' ha]
    · have ha' : (a.1 == w') = false := by simpa using ha
      rw [List.cons_append, mapGet_cons_neg a _ w' ha', mapGet_cons_neg a _ w' ha']
      exact ih

/-- The single fact that pins down `mapSet`: it behaves as a functional
update of the association list. -/
lemma mapGet_mapSet (m : List (String × Nat)) (w w' : String) (v : Nat) :
    mapGet (mapSet m w v) w' = if w' = w then some v else mapGet m w' := by
  unfold mapSet
  by_cases h : (m.find? fun p => p.1 == w).isSome = true
  · rw [if_pos h]
    by_cases hw : w' = w
    · subst hw; rw [if_pos rfl]; exact mapGet_map_update_self m w' v h
    · rw [if_neg hw]; exact mapGet_map_update_ne m w w' v hw
  · have hnone : (m.find? fun p => p.1 == w) = none := by
      cases hf : (m.find? fun p => p.1 == w) with
      | none => rfl
      | some q => rw [hf] at h; simp at h
    rw [if_neg h]
    by_cases hw : w' = w
    · subst hw; rw [if_pos rfl]; exact mapGet_append_self m w' v hnone
    · rw [if_neg hw]; exact mapGet_append_ne m w w' v hw

lemma createWordMap_append_singleton (ws : List String) (x : String) :
    createWordMap (ws ++ [x]) =
      mapSet (createWordMap ws) x ((mapGet (createWordMap ws) x).getD 0 + 1) := by
  simp [createWordMap, List.foldl_append]

/-- The word map built by `createWordMap` stores exactly the occurrence
counts of the input list. -/
lemma mapGet_createWordMap (ws : List String) (w : String) :
    mapGet (createWordMap ws) w = if ws.count w = 0 then none else some (ws.count w) := by
  induction ws using List.reverseRecOn with
  | nil => simp [createWordMap, mapGet, List.find?]
  | append_singleton ws x ih =>
    rw [createWordMap_append_singleton, mapGet_mapSet]
    by_cases hw : w = x
    · subst hw
      have hcount : (ws ++ [w]).count w = ws.count w + 1 := by
        simp [List.count_append]
      rw [if_pos rfl, hcount, ih]
      by_cases h0 : ws.count w = 0
      · simp [h0]
      · simp [h0, Nat.add_one_ne_zero]
    · have hcount : (ws ++ [x]).count w = ws.count w := by
        simp [List.count_append, List.count_singleton', Ne.symm hw]
      rw [if_neg hw, hcount, ih]

/-! ### Keys of the word map -/

lemma keys_mapSet_present (m : List (String × Nat)) (w : String) (v : Nat)
    (h : (m.find? fun p => p.1 == w).isSome = true) :
    (mapSet m w v).map Prod.fst = m.map Prod.fst := by
  unfold mapSet
  rw [if_pos h, List.map_map]
  apply List.map_congr_left
  intro p _
  by_cases hp : p.1 = w
  · simp [hp]
  · simp [hp]

lemma keys_mapSet_absent (m : List (String × Nat)) (w : String) (v : Nat)
    (h : (m.find? fun p => p.1 == w).isSome = false) :
    (mapSet m w v).map Prod.fst = m.map Prod.fst ++ [w] := by
  unfold mapSet
  rw [if_neg (by simp [h]), List.map_append]
  rfl

lemma find?_isSome_iff_mem_keys (m : List (String × Nat)) (w : String) :
    (m.find? fun p => p.1 == w).isSome = true ↔ w ∈ m.map Prod.fst := by
  induction m with
  | nil => simp [List.find?]
  | cons a m ih =>
    by_cases ha : (a.1 == w) = true
    · have ha' : a.1 = w := by simpa using ha
      rw [@List.find?_cons_of_pos (String × Nat) (fun p => p.1 == w) a m ha]
      simp [ha']
    · have ha' : (a.1 == w) = false := by simpa using ha
      rw [@List.find?_cons_of_neg (String × Nat) (fun p => p.1 == w) a m (by simp [ha'])]
      have hne : ¬ a.1 = w := by simpa using ha'
      rw [List.map_cons, List.mem_cons, ih]
      constructor
      · exact fun h => Or.inr h
      · rintro (h | h)
        · exact absurd h.symm hne
        · exact h

lemma keys_createWordMap (ws : List String) :
    ((createWordMap ws).map Prod.fst).Nodup ∧
      ∀ w, w ∈ (createWordMap ws).map Prod.fst ↔ w ∈ ws := by
  induction ws using List.reverseRecOn with
  | nil => simp [createWordMap]
  | append_singleton ws x ih =>
    rw [createWordMap_append_singleton]
    by_cases hx : ((createWordMap ws).find? fun p => p.1 == x).isSome = true
    · rw [keys_mapSet_present _ _ _ hx]
      refine ⟨ih.1, fun w => ?_⟩
      rw [ih.2 w, List.mem_append, List.mem_singleton]
      constructor
      · exact fun h => Or.inl h
      · rintro (h | h)
        · exact h
        · subst h
          exact (ih.2 w).mp ((find?_isSome_iff_mem_keys _ w).mp hx)
    · have hx' : ((createWordMap ws).find? fun p => p.1 == x).isSome = false :=
        Bool.eq_false_iff.mpr hx
      rw [keys_mapSet_absent _ _ _ hx']
      have hxmem : x ∉ (createWordMap ws).map Prod.fst := by
        intro hmem
        exact hx ((find?_isSome_iff_mem_keys _ x).mpr hmem)
      constructor
      · rw [List.nodup_append]
        refine ⟨ih.1, List.nodup_singleton x, fun b hb hbx => ?_⟩
        rw [List.mem_singleton] at hbx
        subst hbx
        exact hxmem hb
      · intro w
        rw [List.mem_append, List.mem_singleton, ih.2 w, List.mem_append, List.mem_singleton]

lemma find?_eq_some_of_mem_of_nodupKeys (m : List (String × Nat))
    (hnd : (m.map Prod.fst).Nodup) (p : String × Nat) (hp : p ∈ m) :
    (m.find? fun q => q.1 == p.1) = some p := by
  induction m with
  | nil => cases hp
  | cons a m ih =>
    rw [List.map_cons, List.nodup_cons] at hnd
    rcases List.mem_cons.mp hp with h | h
    · subst h
      exact @List.find?_cons_of_pos (String × Nat) (fun q => q.1 == p.1) p m (by simp)
    · have hne : (a.1 == p.1) = false := by
        have hmem : p.1 ∈ m.map Prod.fst := List.mem_map.mpr ⟨p, h, rfl⟩
        have : a.1 ≠ p.1 := fun hEq => hnd.1 (hEq ▸ hmem)
        simpa using this
      rw [@List.find?_cons_of_neg (String × Nat) (fun q => q.1 == p.1) a m (by simp [hne])]
      exact ih hnd.2 h

/-- Every stored entry of the word map is the pair of a word and its
occurrence count. -/
lemma entry_val_createWordMap (ws : List String) (p : String × Nat)
    (hp : p ∈ createWordMap ws) : p.2 = ws.count p.1 := by
  have h1 := find?_eq_some_of_mem_of_nodupKeys _ (keys_createWordMap ws).1 p hp
  have h2 := mapGet_createWordMap ws p.1
  unfold mapGet at h2
  rw [h1] at h2
  by_cases h0 : ws.count p.1 = 0
  · rw [if_pos h0] at h2
    cases h2
  · rw [if_neg h0] at h2
    simpa using h2

/-! ### The common-word sum in canonical form -/

/-- Canonical form of the common-word count: for every distinct token of
`A`, the smaller of its two occurrence counts. -/
def S (A B : List String) : ℕ := ∑ w in A.toFinset, min (A.count w) (B.count w)

lemma foldl_commonWords (pm : List (String × Nat)) (m : List (String × Nat)) :
    ∀ n : ℕ,
      m.foldl (fun commonWords p => if (mapGet pm p.1).isSome then
          commonWords + min p.2 ((mapGet pm p.1).getD 0) else commonWords) n
        = n + (m.map fun p => if (mapGet pm p.1).isSome then
            min p.2 ((mapGet pm p.1).getD 0) else 0).sum := by
  induction m with
  | nil => intro n; simp
  | cons a m ih =>
    intro n
    rw [List.foldl_cons, List.map_cons, List.sum_cons]
    by_cases h : (mapGet pm a.1).isSome = true
    · rw [if_pos h, if_pos h, ih, Nat.add_assoc]
    · rw [if_neg h, if_neg h, ih, Nat.zero_add]

lemma nodup_sum_map (K : List String) (g : String → ℕ) (hK : K.Nodup) :
    (K.map g).sum = ∑ w in K.toFinset, g w := by
  induction K with
  | nil => simp
  | cons a K ih =>
    rw [List.map_cons, List.sum_cons, List.toFinset_cons]
    rcases List.nodup_cons.mp hK with ⟨ha, hK'⟩
    rw [Finset.sum_insert (by simpa using ha), ih hK']

/-- The loop of route.ts lines 36-41 computes exactly the canonical
common-word sum. -/
lemma commonWordsOf_createWordMap (A B : List String) :
    commonWordsOf (createWordMap A) (createWordMap B) = S A B := by
  unfold commonWordsOf
  rw [foldl_commonWords, Nat.zero_add]
  have hmap : ((createWordMap A).map fun p =>
      if (mapGet (createWordMap B) p.1).isSome then
        min p.2 ((mapGet (createWordMap B) p.1).getD 0) else 0)
      = (createWordMap A).map fun p => min (A.count p.1) (B.count p.1) := by
    apply List.map_congr_left
    intro p hp
    rw [entry_val_createWordMap A p hp]
    simp only [mapGet_createWordMap]
    by_cases hB : B.count p.1 = 0
    · rw [if_pos hB]
      simp [hB]
    · rw [if_neg hB]
      simp
  rw [hmap]
  have hcomp : ((createWordMap A).map fun p => min (A.count p.1) (B.count p.1))
      = ((createWordMap A).map Prod.fst).map fun w => min (A.count w) (B.count w) := by
    rw [List.map_map]
    rfl
  rw [hcomp, nodup_sum_map _ _ (keys_createWordMap A).1]
  have hfs : ((createWordMap A).map Prod.fst).toFinset = A.toFinset := by
    ext w
    simp only [List.mem_toFinset]
    exact (keys_createWordMap A).2 w
  rw [hfs]
  rfl

lemma S_union (A B : List String) :
    S A B = ∑ w in A.toFinset ∪ B.toFinset, min (A.count w) (B.count w) := by
  unfold S
  apply Finset.sum_subset Finset.subset_union_left
  intro x _ hxA
  have hx : A.count x = 0 := by
    rw [List.count_eq_zero]
    intro hmem
    exact hxA (List.mem_toFinset.mpr hmem)
  simp [hx]

lemma S_comm (A B : List String) : S A B = S B A := by
  rw [S_union A B, S_union B A, Finset.union_comm]
  exact Finset.sum_congr rfl fun x _ => Nat.min_comm _ _

lemma S_le_length (A B : List String) : S A B ≤ A.length := by
  unfold S
  calc ∑ w in A.toFinset, min (A.count w) (B.count w)
      ≤ ∑ w in A.toFinset, A.count w :=
        Finset.sum_le_sum fun w _ => Nat.min_le_left _ _
    _ = A.length := by
        simpa using Multiset.toFinset_sum_count_eq (↑A : Multiset String)

/-! ### Eliminating the rational ratio -/

/-- For `c ≤ m` the JavaScript comparison `c / m > 0.6` (with `0/0 = NaN`
compared false, `0/m = 0` compared false) agrees with the integer
comparison `3 * m < 5 * c`. -/
lemma ratio_gt_point_six (c m : ℕ) (hcm : c ≤ m) :
    ((c : ℚ) / (m : ℚ) > 0.6) ↔ 3 * m < 5 * c := by
  rcases Nat.eq_zero_or_pos m with hm | hm
  · subst hm
    have hc : c = 0 := Nat.le_zero.mp hcm
    subst hc
    norm_num
  · have hm' : (0 : ℚ) < (m : ℚ) := by exact_mod_cast hm
    rw [gt_iff_lt, show (0.6 : ℚ) = 3 / 5 by norm_num,
      div_lt_div_iff (by norm_num) hm']
    constructor
    · intro h
      have h' : (3 * m : ℚ) < (5 * c : ℚ) := by push_cast; push_cast at h; linarith
      exact_mod_cast h'
    · intro h
      have h' : (3 * m : ℚ) < (5 * c : ℚ) := by exact_mod_cast h
      push_cast at h' ⊢
      linarith

lemma commonWords_le_max (A B : List String) :
    commonWordsOf (createWordMap A) (createWordMap B) ≤ max A.length B.length := by
  rw [commonWordsOf_createWordMap]
  exact le_trans (S_le_length A B) (Nat.le_max_left _ _)

/-- Kernel-executable form of the similarity test. -/
lemma analyze_eval (msg prompt : String) :
    analyzeMessageSimilarity msg prompt =
      if msg = "" then false
      else decide (3 * max (tokenizeWords msg).length (tokenizeWords prompt).length <
        5 * commonWordsOf (createWordMap (tokenizeWords msg))
          (createWordMap (tokenizeWords prompt))) := by
  by_cases h : msg = ""
  · simp only [analyzeMessageSimilarity, if_pos h]
  · simp only [analyzeMessageSimilarity, if_neg h]
    rw [decide_eq_decide]
    exact ratio_gt_point_six _ _ (commonWords_le_max _ _)

lemma sum_map_filter_eq (l : List String) (p : String → Bool) (f : String → ℕ)
    (h : ∀ x ∈ l, p x = false → f x = 0) :
    ((l.filter p).map f).sum = (l.map f).sum := by
  induction l with
  | nil => rfl
  | cons a l ih =>
    rw [List.filter_cons]
    by_cases ha : p a = true
    · rw [if_pos ha, List.map_cons, List.sum_cons, List.map_cons, List.sum_cons,
        ih fun x hx hpx => h x (List.mem_cons_of_mem a hx) hpx]
    · have ha' : p a = false := by simpa using ha
      rw [if_neg (by simp [ha']), List.map_cons, List.sum_cons,
        h a (List.mem_cons_self a l) ha', Nat.zero_add,
        ih fun x hx hpx => h x (List.mem_cons_of_mem a hx) hpx]

/-- The spec's `Σ min` over tokens present in both mappings is the same
canonical sum. -/
lemma filter_dedup_sum_eq_S (A B : List String) :
    ((A.dedup.filter fun w => decide (w ∈ B)).map
      fun w => min (A.count w) (B.count w)).sum = S A B := by
  have hvanish : ∀ x ∈ A.dedup, (decide (x ∈ B)) = false →
      min (A.count x) (B.count x) = 0 := by
    intro x _ hpx
    have hxB : x ∉ B := by simpa using hpx
    rw [List.count_eq_zero.mpr hxB, Nat.min_zero]
  rw [sum_map_filter_eq _ _ _ hvanish, nodup_sum_map _ _ (List.nodup_dedup A)]
  have hfs : A.dedup.toFinset = A.toFinset := by
    ext w
    simp
  rw [hfs]
  rfl

/-- Kernel-executable form of the spec's reference scorer. -/
lemma isRepetitiveSpec_eval (candidate reference : String) :
    isRepetitiveSpec candidate reference =
      if candidate = "" then false
      else decide (3 * max (wsTokenize candidate).length (wsTokenize reference).length <
        5 * (((wsTokenize candidate).dedup.filter
            fun w => decide (w ∈ wsTokenize reference)).map
          fun w => min ((wsTokenize candidate).count w)
            ((wsTokenize reference).count w)).sum) := by
  by_cases h : candidate = ""
  · simp only [isRepetitiveSpec, if_pos h]
  · simp only [isRepetitiveSpec, if_neg h]
    rw [decide_eq_decide]
    apply ratio_gt_point_six
    rw [filter_dedup_sum_eq_S]
    exact le_trans (S_le_length _ _) (Nat.le_max_left _ _)

/-! ### Embedding of the chat POST handler (route.ts lines 46-186) -/

/-- The constant `CONFIG.TIMEOUT_MS` (route.ts line 11): the deadline armed at handler
entry via `setTimeout(() => controller.abort(), CONFIG.TIMEOUT_MS)`. -/
def TIMEOUT_MS : Nat := 30000

/-- The constant `CONFIG.MAX_LENGTH` (route.ts line 12), passed as `max_tokens`. -/
def MAX_LENGTH : Nat := 512

/-- One row of `companion.messages` (the ten most recent turns for this
user, ordered by `createdAt` descending). -/
structure Message where
  role : String
  content : String
deriving DecidableEq

/-- The companion record read by the handler (only the fields it uses). -/
structure Companion where
  id : String
  name : String
  instructions : String
  seed : String
  messages : List Message
deriving DecidableEq

/-- Everything the handler observes from the outside world in one request:
authentication, the rate-limit decision, the companion lookup result, the
request prompt, the History Store read, the vector-search result, the raw
model output, and whether the fire-and-continue user-turn write fulfils. -/
structure Env where
  userAuthed : Bool
  rateLimitSuccess : Bool
  companion : Option Companion
  prompt : String
  history : List String
  similarDocs : List String
  modelResponse : String
  userWriteOk : Bool
deriving DecidableEq

/-- The handler's HTTP outcomes: 401, 429, 404, 500, and the 200 streamed
body. -/
inductive Response where
  | unauthorized
  | rateLimited
  | notFound
  | internalError
  | streamed (body : String)
deriving DecidableEq

/-- Externally observable side effects of one request, in issue order. -/
inductive Event where
  | rateLimitCheck (success : Bool)
  | companionLookup
  | userTurnWriteStart (content : String)
  | computeRepetition (signal : Bool)
  | historyRead (records : List String)
  | vectorSearchCall (documentId : String)
  | seedWrite (seed : String)
  | userTurnAwait (ok : Bool)
  | generateCall (prompt : String) (abortSignal : Option Unit)
  | historyAppend (entry : String)
  | systemTurnCreate (content : String)
  | timerClear
deriving DecidableEq

/-- First newline-delimited segment:
`String(modelResponse).split("\n")[0]` (route.ts line 152). -/
def firstLine (s : String) : String :=
  String.mk (s.data.takeWhile fun c => c ≠ '\n')

/-- JavaScript `String.prototype.trim`. -/
def trimString (s : String) : String :=
  String.mk (((s.data.dropWhile Char.isWhitespace).reverse.dropWhile
    Char.isWhitespace).reverse)

/-- JavaScript `Array.prototype.join(sep)`. -/
def joinWith (sep : String) : List String → String
  | [] => ""
  | [x] => x
  | x :: xs => x ++ sep ++ joinWith sep xs

/-- The signal `isRepetitive` (route.ts lines 95-97): some recent message is similar
to the prompt. -/
def repetitionSignal (c : Companion) (prompt : String) : Bool :=
  c.messages.any fun msg => analyzeMessageSimilarity msg.content prompt

/-- The transcript `messageHistory` (route.ts lines 118-121): label each turn, reverse to
chronological order (the lookup returned newest first), join with
newlines. -/
def buildMessageHistory (c : Companion) : String :=
  joinWith "\n"
    ((c.messages.map fun msg =>
      (if msg.role = "user" then "User" else c.name) ++ ": " ++ msg.content).reverse)

/-- The joined snippets `relevantHistory` (route.ts lines 123-125):
`similarDocs?.length ? similarDocs.map(doc => doc.pageContent).join("\n") : ""`. -/
def buildRelevantHistory (similarDocs : List String) : String :=
  if similarDocs.length ≠ 0 then joinWith "\n" similarDocs else ""

/-- The prompt template of route.ts lines 138-144, verbatim. -/
def buildPrompt (c : Companion) (prompt messageHistory : String) : String :=
  "<|system|>\nYou are " ++ c.name ++ ". Focus on: " ++ prompt ++ "\n"
    ++ c.instructions ++ "\nRecent context:\n" ++ messageHistory
    ++ "\nCurrent question: " ++ prompt ++ "\n<|assistant|>"

/-- The handler body from the user-turn write onward (route.ts lines
83-180), with the computed repetition signal abstracted as the parameter
`isRep` so that its influence on the rest of the request can be stated.
The deadline timer is cleared only in the `catch` block (route.ts line
182), which this embedding reaches when the awaited user-turn write
rejects; no other exit emits `timerClear`. -/
def POSTcore (env : Env) (c : Companion) (isRep : Bool) : Response × List Event :=
  let ev0 : List Event :=
    [.rateLimitCheck env.rateLimitSuccess, .companionLookup,
     .userTurnWriteStart env.prompt, .computeRepetition isRep,
     .historyRead env.history, .vectorSearchCall (c.id ++ ".txt")]
  let ev1 := ev0 ++ (if env.history.length = 0 then [.seedWrite c.seed] else [])
  let messageHistory := buildMessageHistory c
  let _relevantHistory := buildRelevantHistory env.similarDocs
  let ev2 := ev1 ++ [.userTurnAwait env.userWriteOk]
  if env.userWriteOk then
    let thePrompt := buildPrompt c env.prompt messageHistory
    let ev3 := ev2 ++ [.generateCall thePrompt none]
    let finalResponse := firstLine env.modelResponse
    if finalResponse.length > 1 then
      (.streamed finalResponse,
        ev3 ++ [.historyAppend ("User: " ++ env.prompt ++ "\n" ++ trimString finalResponse),
                .systemTurnCreate (trimString finalResponse)])
    else
      (.streamed finalResponse, ev3)
  else
    (.internalError, ev2 ++ [.timerClear])

/-- The full `POST` handler (route.ts lines 46-186): the 401 guard, the
parallel admission reads, the 429 and 404 early returns, then
`POSTcore` with the repetition signal computed from the loaded turns. -/
def POSTrun (env : Env) : Response × List Event :=
  if env.userAuthed = false then
    (.unauthorized, [])
  else if env.rateLimitSuccess = false then
    (.rateLimited, [.rateLimitCheck env.rateLimitSuccess, .companionLookup])
  else
    match env.companion with
    | none => (.notFound, [.rateLimitCheck env.rateLimitSuccess, .companionLookup])
    | some c => POSTcore env c (repetitionSignal c env.prompt)

/-! ### Trace projections -/

/-- Seed texts written by `seedChatHistory` calls in a trace. -/
def seedWrites (tr : List Event) : List String :=
  tr.filterMap fun e =>
    match e with
    | .seedWrite s => some s
    | _ => none

/-- Prompts passed to the Generation Client in a trace. -/
def generatePrompts (tr : List Event) : List String :=
  tr.filterMap fun e =>
    match e with
    | .generateCall p _ => some p
    | _ => none

/-- Abort signals attached to Generation Client calls in a trace. -/
def generateSignals (tr : List Event) : List (Option Unit) :=
  tr.filterMap fun e =>
    match e with
    | .generateCall _ s => some s
    | _ => none

/-- Entries appended to the History Store in a trace. -/
def historyAppendEntries (tr : List Event) : List String :=
  tr.filterMap fun e =>
    match e with
    | .historyAppend s => some s
    | _ => none

/-- Contents of system-role turns created in a trace. -/
def systemTurnContents (tr : List Event) : List String :=
  tr.filterMap fun e =>
    match e with
    | .systemTurnCreate s => some s
    | _ => none

/-! ### Concrete request environments -/

/-- A concrete companion used for witnesses.  Its recent-turn list is kept
empty so every concrete run is kernel-computable. -/
def sampleCompanion : Companion :=
  { id := "companion-1"
    name := "Arcana"
    instructions := "Stay in character."
    seed := "Hello, I am Arcana."
    messages := [] }

/-- A fully successful request: authenticated, admitted, companion found,
non-empty stored history, non-empty retrieval result, user-turn write
fulfils, model answers with a multi-line response. -/
def sampleEnv : Env :=
  { userAuthed := true
    rateLimitSuccess := true
    companion := some sampleCompanion
    prompt := "tell me a story"
    history := ["seeded line"]
    similarDocs := ["ARCHIVE SNIPPET"]
    modelResponse := "Once upon a time\nand some rambling"
    userWriteOk := true }

example : POSTrun sampleEnv =
    (.streamed "Once upon a time",
     [.rateLimitCheck true, .companionLookup, .userTurnWriteStart "tell me a story",
      .computeRepetition false, .historyRead ["seeded line"],
      .vectorSearchCall "companion-1.txt", .userTurnAwait true,
      .generateCall (buildPrompt sampleCompanion "tell me a story" (buildMessageHistory sampleCompanion)) none,
      .historyAppend "User: tell me a story\nOnce upon a time",
      .systemTurnCreate "Once upon a time"]) := by
  decide

/-! ### Claim theorems: the similarity scorer -/

lemma S_nil_right (A : List String) : S A [] = 0 := by
  unfold S
  simp

/-- C5 (counterexample): the source scorer and the spec's reference
definition disagree as soon as a non-space whitespace character separates
tokens: for candidate `"a\tb"` against reference `"a b"` the source's
`split(" ")` keeps `"a\tb"` as one token and scores `0/2 = 0`, while the
spec's whitespace tokenization scores `2/2 = 1 > 0.6`. -/
theorem scorer_deviates_on_non_space_whitespace :
    analyzeMessageSimilarity "a\tb" "a b" = false ∧
      isRepetitiveSpec "a\tb" "a b" = true := by
  constructor
  · rw [analyze_eval]
    decide
  · rw [isRepetitiveSpec_eval]
    decide

/-- C5 (amended): the scorer equals the reference definition with
tokenization on the space character only (JavaScript `split(" ")`) instead
of full whitespace tokenization; in particular an empty candidate always
yields `false` and a string compared with itself (`"the cat sat"`) yields
`true`. -/
theorem scorer_matches_space_tokenized_reference :
    (∀ x, analyzeMessageSimilarity "" x = false) ∧
      analyzeMessageSimilarity "the cat sat" "the cat sat" = true ∧
      ∀ a b, analyzeMessageSimilarity a b = isRepetitiveSpecSpace a b := by
  refine ⟨fun x => rfl, ?_, ?_⟩
  · rw [analyze_eval]
    decide
  · intro a b
    by_cases h : a = ""
    · simp only [analyzeMessageSimilarity, isRepetitiveSpecSpace, if_pos h]
    · simp only [analyzeMessageSimilarity, isRepetitiveSpecSpace, if_neg h]
      rw [commonWordsOf_createWordMap, filter_dedup_sum_eq_S]

/-- C10: the similarity scorer is symmetric in its two arguments,
including the degenerate cases where either argument is empty or contains
only spaces: the common-word sum and the larger token count are both
symmetric, and the early `!msg` guard returns the same `false` that the
formula produces on an empty token list. -/
theorem similarity_scorer_symmetric :
    ∀ a b, analyzeMessageSimilarity a b = analyzeMessageSimilarity b a := by
  intro a b
  rw [analyze_eval, analyze_eval]
  by_cases ha : a = "" <;> by_cases hb : b = ""
  · rw [if_pos ha, if_pos hb]
  · subst ha
    rw [if_pos rfl, if_neg hb,
      show tokenizeWords "" = [] from rfl, commonWordsOf_createWordMap, S_nil_right]
    simp
  · subst hb
    rw [if_pos rfl, if_neg ha,
      show tokenizeWords "" = [] from rfl, commonWordsOf_createWordMap, S_nil_right]
    simp
  · rw [if_neg ha, if_neg hb, commonWordsOf_createWordMap, commonWordsOf_createWordMap,
      S_comm (tokenizeWords a) (tokenizeWords b),
      Nat.max_comm (tokenizeWords a).length (tokenizeWords b).length]

/-! ### Claim theorems: the POST handler -/

/-- C1 (code bug): the retrieval result never reaches the prompt.  The
handler's entire outcome — response and full effect trace, in particular
the prompt passed to the Generation Client — is independent of the
vector-search result, even though `relevantHistory` (route.ts lines
123-125) would be non-empty; the concrete successful run shows the prompt
consists only of the persona preamble, instructions, recent transcript and
restated question, with no archival snippet. -/
theorem prompt_omits_archival_snippets :
    (∀ env docs, POSTrun { env with similarDocs := docs } = POSTrun env) ∧
      buildRelevantHistory ["ARCHIVE SNIPPET"] = "ARCHIVE SNIPPET" ∧
      generatePrompts (POSTrun sampleEnv).2 =
        ["<|system|>\nYou are Arcana. Focus on: tell me a story\nStay in character.\nRecent context:\n\nCurrent question: tell me a story\n<|assistant|>"] := by
  refine ⟨fun env docs => ?_, by decide, by decide⟩
  cases env
  rfl

/-- C2 (code bug): `clearTimeout` is reached only in the `catch` block
(route.ts line 182).  The concrete successful run returns the 200 streamed
response with no `timerClear` in its trace, and in general a trace
contains `timerClear` exactly when the request ends in the generic
internal error. -/
theorem timer_cleared_only_on_error_path :
    ((POSTrun sampleEnv).1 = Response.streamed "Once upon a time" ∧
        Event.timerClear ∉ (POSTrun sampleEnv).2) ∧
      ∀ env, Event.timerClear ∈ (POSTrun env).2 ↔
        (POSTrun env).1 = Response.internalError := by
  refine ⟨by decide, fun env => ?_⟩
  unfold POSTrun
  by_cases hA : env.userAuthed = false
  · rw [if_pos hA]
    simp
  · rw [if_neg hA]
    by_cases hR : env.rateLimitSuccess = false
    · rw [if_pos hR]
      simp
    · rw [if_neg hR]
      cases env.companion with
      | none => simp
      | some c =>
        by_cases hw : env.userWriteOk = true <;>
        by_cases hh : env.history.length = 0 <;>
        by_cases hl : (firstLine env.modelResponse).length > 1 <;>
          simp [POSTcore, hw, hh, hl]

/-- Request in which the user-turn write rejects while every other step
succeeds. -/
def envWriteFails : Env := { sampleEnv with userWriteOk := false }

/-- C3 (counterexample): a request in which only the fire-and-continue
user-turn write fails does not return the generated response: the handler
awaits that write (route.ts line 133, `await messagePromise`) before
calling the Generation Client, so the rejection lands in the `catch` block
and the caller sees the generic internal error. -/
theorem user_turn_write_failure_turns_into_error_response :
    (POSTrun envWriteFails).1 = Response.internalError ∧
      (POSTrun envWriteFails).1 ≠
        Response.streamed (firstLine envWriteFails.modelResponse) ∧
      Event.userTurnAwait false ∈ (POSTrun envWriteFails).2 := by
  decide

/-- Events the handler issues before it awaits the user-turn write. -/
def preAwaitEvents (env : Env) (c : Companion) (isRep : Bool) : List Event :=
  [.rateLimitCheck env.rateLimitSuccess, .companionLookup,
   .userTurnWriteStart env.prompt, .computeRepetition isRep,
   .historyRead env.history, .vectorSearchCall (c.id ++ ".txt")] ++
    (if env.history.length = 0 then [.seedWrite c.seed] else [])

/-- Events the handler issues after the awaited user-turn write resolves. -/
def postAwaitEvents (env : Env) (c : Companion) : List Event :=
  if env.userWriteOk then
    [.generateCall (buildPrompt c env.prompt (buildMessageHistory c)) none] ++
      (if (firstLine env.modelResponse).length > 1 then
        [.historyAppend ("User: " ++ env.prompt ++ "\n" ++
            trimString (firstLine env.modelResponse)),
          .systemTurnCreate (trimString (firstLine env.modelResponse))]
      else [])
  else [.timerClear]

lemma POSTcore_trace_decomp (env : Env) (c : Companion) (isRep : Bool) :
    (POSTcore env c isRep).2 =
      preAwaitEvents env c isRep ++
        Event.userTurnAwait env.userWriteOk :: postAwaitEvents env c := by
  unfold POSTcore preAwaitEvents postAwaitEvents
  by_cases hw : env.userWriteOk = true <;>
    by_cases hl : (firstLine env.modelResponse).length > 1 <;>
      simp [hw, hl]

/-- C3 (amended): the user-turn write is started before the repetition
computation, the History Store read and the retrieval query (overlapping
their latency), but the handler awaits it before any Generation Client
call; when that write fails, the user-visible response is the generic
internal error and no generation call is issued. -/
theorem user_turn_write_early_start_then_await (env : Env) (c : Companion)
    (hA : env.userAuthed = true) (hR : env.rateLimitSuccess = true)
    (hC : env.companion = some c) :
    (env.userWriteOk = false →
        (POSTrun env).1 = Response.internalError ∧
          generatePrompts (POSTrun env).2 = []) ∧
      ∃ pre post,
        (POSTrun env).2 = pre ++ Event.userTurnAwait env.userWriteOk :: post ∧
        Event.userTurnWriteStart env.prompt ∈ pre ∧
        Event.historyRead env.history ∈ pre ∧
        ∀ p s, Event.generateCall p s ∈ (POSTrun env).2 →
          Event.generateCall p s ∈ post := by
  have hrun : POSTrun env = POSTcore env c (repetitionSignal c env.prompt) := by
    simp [POSTrun, hA, hR, hC]
  constructor
  · intro hw
    rw [hrun]
    constructor
    · simp [POSTcore, hw]
    · by_cases hh : env.history.length = 0 <;>
        simp [POSTcore, hw, hh, generatePrompts]
  · refine ⟨preAwaitEvents env c (repetitionSignal c env.prompt),
      postAwaitEvents env c, ?_, ?_, ?_, ?_⟩
    · rw [hrun]
      exact POSTcore_trace_decomp env c _
    · unfold preAwaitEvents
      simp
    · unfold preAwaitEvents
      simp
    · intro p s hmem
      rw [hrun, POSTcore_trace_decomp] at hmem
      rcases List.mem_append.mp hmem with h | h
      · exfalso
        unfold preAwaitEvents at h
        by_cases hh : env.history.length = 0 <;> simp [hh] at h
      · rcases List.mem_cons.mp h with h | h
        · simp at h
        · exact h

/-- C3 (witness): the amended statement at the concrete failing request. -/
theorem user_turn_write_early_start_then_await_witness :
    (envWriteFails.userWriteOk = false →
        (POSTrun envWriteFails).1 = Response.internalError ∧
          generatePrompts (POSTrun envWriteFails).2 = []) ∧
      ∃ pre post,
        (POSTrun envWriteFails).2 =
          pre ++ Event.userTurnAwait envWriteFails.userWriteOk :: post ∧
        Event.userTurnWriteStart envWriteFails.prompt ∈ pre ∧
        Event.historyRead envWriteFails.history ∈ pre ∧
        ∀ p s, Event.generateCall p s ∈ (POSTrun envWriteFails).2 →
          Event.generateCall p s ∈ post :=
  user_turn_write_early_start_then_await envWriteFails sampleCompanion rfl rfl rfl

/-- C4 (code bug): the Generation Client call is issued without any abort
signal — in every possible request the trace's generation calls all carry
`none` — so the deadline timer armed with `TIMEOUT_MS = 30000` (route.ts
lines 47-48) has nothing to cancel: `controller.signal` is never passed to
`replicate.run` (route.ts lines 136-150). -/
theorem generation_abort_signal_never_wired :
    (∀ env, generateSignals (POSTrun env).2 = [] ∨
        generateSignals (POSTrun env).2 = [none]) ∧
      generateSignals (POSTrun sampleEnv).2 = [none] ∧ TIMEOUT_MS = 30000 := by
  refine ⟨fun env => ?_, by decide, rfl⟩
  unfold POSTrun
  by_cases hA : env.userAuthed = false
  · rw [if_pos hA]
    left
    rfl
  · rw [if_neg hA]
    by_cases hR : env.rateLimitSuccess = false
    · rw [if_pos hR]
      left
      rfl
    · rw [if_neg hR]
      cases env.companion with
      | none =>
        left
        rfl
      | some c =>
        by_cases hw : env.userWriteOk = true <;>
        by_cases hh : env.history.length = 0 <;>
        by_cases hl : (firstLine env.modelResponse).length > 1 <;>
          simp [POSTcore, hw, hh, hl, generateSignals]

/-- C6: in every admitted request (authenticated, rate limit passed,
companion found), exactly one seeding write occurs when the History Store
read returned the empty sequence, and none occurs when it was non-empty
(route.ts lines 113-115). -/
theorem seeding_iff_empty_history (env : Env) (c : Companion)
    (hA : env.userAuthed = true) (hR : env.rateLimitSuccess = true)
    (hC : env.companion = some c) :
    seedWrites (POSTrun env).2 = (if env.history = [] then [c.seed] else []) ∧
      ((seedWrites (POSTrun env).2).length = 1 ↔ env.history = []) := by
  have hrun : POSTrun env = POSTcore env c (repetitionSignal c env.prompt) := by
    simp [POSTrun, hA, hR, hC]
  rw [hrun]
  by_cases hh : env.history = []
  · have hh0 : env.history.length = 0 := by
      rw [hh]
      rfl
    by_cases hw : env.userWriteOk = true <;>
    by_cases hl : (firstLine env.modelResponse).length > 1 <;>
      simp [POSTcore, hw, hh, hh0, hl, seedWrites]
  · have hh0 : ¬ env.history.length = 0 := by
      simpa [List.length_eq_zero] using hh
    by_cases hw : env.userWriteOk = true <;>
    by_cases hl : (firstLine env.modelResponse).length > 1 <;>
      simp [POSTcore, hw, hh, hh0, hl, seedWrites]

/-- First-ever request for the conversation key: empty stored history. -/
def envEmptyHistory : Env := { sampleEnv with history := [] }

/-- C6 (witness): the seeding rule evaluated at a first-ever request with
empty history. -/
theorem seeding_iff_empty_history_witness :
    seedWrites (POSTrun envEmptyHistory).2 =
        (if envEmptyHistory.history = [] then [sampleCompanion.seed] else []) ∧
      ((seedWrites (POSTrun envEmptyHistory).2).length = 1 ↔
        envEmptyHistory.history = []) :=
  seeding_iff_empty_history envEmptyHistory sampleCompanion rfl rfl rfl

/-- C7: with `finalResponse` the first newline-delimited segment of the
model output (e.g. `"Hello there\nI am rambling more"` truncates to
`"Hello there"`), a request whose `finalResponse` has length at most one
performs no history append and creates no system turn, yet still returns
the 200 streamed response (route.ts lines 152-180). -/
theorem trivial_response_skips_persistence (env : Env) (c : Companion)
    (hA : env.userAuthed = true) (hR : env.rateLimitSuccess = true)
    (hC : env.companion = some c) (hW : env.userWriteOk = true)
    (hTriv : (firstLine env.modelResponse).length ≤ 1) :
    firstLine "Hello there\nI am rambling more" = "Hello there" ∧
      historyAppendEntries (POSTrun env).2 = [] ∧
      systemTurnContents (POSTrun env).2 = [] ∧
      (POSTrun env).1 = Response.streamed (firstLine env.modelResponse) := by
  have hrun : POSTrun env = POSTcore env c (repetitionSignal c env.prompt) := by
    simp [POSTrun, hA, hR, hC]
  have hl : ¬ (firstLine env.modelResponse).length > 1 := by omega
  refine ⟨by decide, ?_, ?_, ?_⟩ <;>
    by_cases hh : env.history.length = 0 <;>
      simp [hrun, POSTcore, hW, hh, hl, historyAppendEntries, systemTurnContents]

/-- Request whose model output truncates to a single character. -/
def envTrivialResponse : Env := { sampleEnv with modelResponse := "x\nlong tail" }

/-- C7 (witness): the trivial-response skip at a concrete request whose
model output truncates to `"x"`. -/
theorem trivial_response_skips_persistence_witness :
    firstLine "Hello there\nI am rambling more" = "Hello there" ∧
      historyAppendEntries (POSTrun envTrivialResponse).2 = [] ∧
      systemTurnContents (POSTrun envTrivialResponse).2 = [] ∧
      (POSTrun envTrivialResponse).1 =
        Response.streamed (firstLine envTrivialResponse.modelResponse) :=
  trivial_response_skips_persistence envTrivialResponse sampleCompanion rfl rfl rfl rfl
    (by decide)

/-- C8: a request whose rate-limit check fails is answered with the 429
admission-control response before any effectful step: no generation call,
no history append, no system turn, no seeding, and the user-turn write is
never started (route.ts lines 60-77). -/
theorem rate_limited_never_reaches_generation (env : Env)
    (hA : env.userAuthed = true) (hR : env.rateLimitSuccess = false) :
    (POSTrun env).1 = Response.rateLimited ∧
      generatePrompts (POSTrun env).2 = [] ∧
      historyAppendEntries (POSTrun env).2 = [] ∧
      systemTurnContents (POSTrun env).2 = [] ∧
      seedWrites (POSTrun env).2 = [] ∧
      Event.userTurnWriteStart env.prompt ∉ (POSTrun env).2 := by
  have hrun : POSTrun env =
      (.rateLimited, [.rateLimitCheck env.rateLimitSuccess, .companionLookup]) := by
    simp [POSTrun, hA, hR]
  rw [hrun]
  refine ⟨rfl, rfl, rfl, rfl, rfl, ?_⟩
  simp

/-- Request rejected by admission control. -/
def envRateLimited : Env := { sampleEnv with rateLimitSuccess := false }

/-- C8 (witness): the admission-control barrier at a concrete
rate-limited request. -/
theorem rate_limited_never_reaches_generation_witness :
    (POSTrun envRateLimited).1 = Response.rateLimited ∧
      generatePrompts (POSTrun envRateLimited).2 = [] ∧
      historyAppendEntries (POSTrun envRateLimited).2 = [] ∧
      systemTurnContents (POSTrun envRateLimited).2 = [] ∧
      seedWrites (POSTrun envRateLimited).2 = [] ∧
      Event.userTurnWriteStart envRateLimited.prompt ∉ (POSTrun envRateLimited).2 :=
  rate_limited_never_reaches_generation envRateLimited rfl rfl

/-- C9: the repetition signal is computed but inert.  Replacing the
computed boolean by any other value changes neither the response, nor the
generation prompt, nor any persisted write of the continuation
`POSTcore`; and every admitted request runs exactly that continuation on
the computed signal (route.ts lines 93-98). -/
theorem repetition_signal_unused_by_output :
    (∀ env c b₁ b₂,
        (POSTcore env c b₁).1 = (POSTcore env c b₂).1 ∧
        generatePrompts (POSTcore env c b₁).2 = generatePrompts (POSTcore env c b₂).2 ∧
        historyAppendEntries (POSTcore env c b₁).2 =
          historyAppendEntries (POSTcore env c b₂).2 ∧
        systemTurnContents (POSTcore env c b₁).2 =
          systemTurnContents (POSTcore env c b₂).2 ∧
        seedWrites (POSTcore env c b₁).2 = seedWrites (POSTcore env c b₂).2) ∧
      ∀ env c, env.userAuthed = true → env.rateLimitSuccess = true →
        env.companion = some c →
        POSTrun env = POSTcore env c (repetitionSignal c env.prompt) := by
  constructor
  · intro env c b₁ b₂
    by_cases hw : env.userWriteOk = true <;>
    by_cases hh : env.history.length = 0 <;>
    by_cases hl : (firstLine env.modelResponse).length > 1 <;>
      exact ⟨by simp [POSTcore, hw, hh, hl],
        by simp [POSTcore, hw, hh, hl, generatePrompts],
        by simp [POSTcore, hw, hh, hl, historyAppendEntries],
        by simp [POSTcore, hw, hh, hl, systemTurnContents],
        by simp [POSTcore, hw, hh, hl, seedWrites]⟩
  · intro env c hA hR hC
    simp [POSTrun, hA, hR, hC]

/-- C9 (witness): signal-invariance and the continuation identity at the
concrete successful request. -/
theorem repetition_signal_unused_witness :
    (POSTcore sampleEnv sampleCompanion true).1 =
        (POSTcore sampleEnv sampleCompanion false).1 ∧
      POSTrun sampleEnv = POSTcore sampleEnv sampleCompanion
        (repetitionSignal sampleCompanion sampleEnv.prompt) :=
  ⟨(repetition_signal_unused_by_output.1 sampleEnv sampleCompanion true false).1,
    repetition_signal_unused_by_output.2 sampleEnv sampleCompanion rfl rfl rfl⟩
